import Mathlib

/-!
Shallow embedding of `src/frontend/src/features/editor/editor.ts`: a
CodeMirror-based markdown editor with two view plugins (heading rendering and
checkbox rendering, both skipping the active line), a checkbox toggle handler,
an update/rebuild policy, and an export action on the Angular component.

Documents are modelled as lists of lines, each line a list of characters;
offsets count characters, lines are joined by a single newline character as in
CodeMirror's `Text.toString`.
-/

/-- Character class of the JavaScript regex escape `\s` (whitespace). -/
def jsSpace (c : Char) : Bool :=
  c == ' ' || c == '\t' || c == '\n' || c == '\r' ||
  c == Char.ofNat 11 || c == Char.ofNat 12 ||
  c == Char.ofNat 0xA0 || c == Char.ofNat 0x1680 ||
  (0x2000 ≤ c.toNat && c.toNat ≤ 0x200A) ||
  c == Char.ofNat 0x2028 || c == Char.ofNat 0x2029 || c == Char.ofNat 0x202F ||
  c == Char.ofNat 0x205F || c == Char.ofNat 0x3000 || c == Char.ofNat 0xFEFF

/-- JavaScript `String.prototype.toLowerCase` restricted to a single character
(ASCII case mapping suffices for the characters the checkbox regex can capture). -/
def jsToLower (c : Char) : Char :=
  if 'A' ≤ c ∧ c ≤ 'Z' then Char.ofNat (c.toNat + 32) else c

/-- Number of leading marker characters of a line. -/
def countLeadingHashes : List Char → Nat
  | [] => 0
  | c :: rest => if c = '#' then countLeadingHashes rest + 1 else 0

/-- JavaScript `text.match(/^(#{1,6})\s+(.*)$/)` on a single line, returning
the heading level (length of the first capture) on success.  The greedy
quantifier with backtracking matches exactly when the full run of leading
marker characters has length 1..6 and is followed by a whitespace character. -/
def headingMatch (t : List Char) : Option Nat :=
  if 1 ≤ countLeadingHashes t ∧ countLeadingHashes t ≤ 6 then
    match t.drop (countLeadingHashes t) with
    | c :: _ => if jsSpace c then some (countLeadingHashes t) else none
    | [] => none
  else none

/-- JavaScript `text.match(/^\s*-\s*\[( |x|X)\]/)` on a single line, returning
the captured bracket-interior character on success. -/
def checkboxMatch (t : List Char) : Option Char :=
  match List.dropWhile jsSpace t with
  | [] => none
  | d :: rest =>
    if d = '-' then
      match List.dropWhile jsSpace rest with
      | b :: c :: r :: _ =>
        if b = '[' ∧ r = ']' ∧ (c = ' ' ∨ c = 'x' ∨ c = 'X') then some c else none
      | _ => none
    else none

/-- JavaScript `text.indexOf(char)`; `none` models the `-1` result. -/
def indexOfChar : List Char → Char → Option Nat
  | [], _ => none
  | a :: rest, c => if a = c then some 0 else (indexOfChar rest c).map (· + 1)

/-- A document line as CodeMirror exposes it: 1-based number, start and end
offsets (the end offset excludes the line break), and its text. -/
structure LineInfo where
  num : Nat
  lfrom : Nat
  lto : Nat
  text : List Char
  deriving DecidableEq, Repr

/-- A decoration emitted through the `RangeSetBuilder`: either a replaced span
carrying a `HiddenMarkerWidget`, a line class, or a replaced span carrying a
`CheckboxWidget` (whose fields are the checked flag and the span itself). -/
inductive Deco where
  | replaceHidden (dfrom dto : Nat)
  | lineClass (pos : Nat) (cls : String)
  | replaceCheckbox (dfrom dto : Nat) (checked : Bool)
  deriving DecidableEq, Repr

/-- Decorations the heading plugin's `build` adds for one non-active line:
on a heading match it hides the marker plus one character and tags the line
with class `md-h<level>`; otherwise nothing. -/
def headingLineDecos (l : LineInfo) : List Deco :=
  match headingMatch l.text with
  | some level =>
    let markerLen := level + 1
    [Deco.replaceHidden l.lfrom (l.lfrom + markerLen),
     Deco.lineClass l.lfrom ("md-h" ++ toString level)]
  | none => []

/-- Decoration the checkbox plugin's `build` adds for one non-active line:
on a match, the replaced span starts at `indexOf` of the opening bracket and
spans 3 characters, and the widget's checked flag compares the lowercased
captured character with the letter x. -/
def checkboxLineDeco (l : LineInfo) : Option Deco :=
  match checkboxMatch l.text with
  | none => none
  | some c =>
    let checked := jsToLower c == 'x'
    match indexOfChar l.text '[' with
    | none => none
    | some bracketIndex =>
      let fromAbs := l.lfrom + bracketIndex
      let toAbs := fromAbs + 3
      some (Deco.replaceCheckbox fromAbs toAbs checked)

/-- Lay out a list of line texts as contiguous `LineInfo`s, starting from a
given 1-based line number and start offset; consecutive lines are separated by
one newline character, so the next line starts at `lto + 1`. -/
def mkLines : List (List Char) → Nat → Nat → List LineInfo
  | [], _, _ => []
  | t :: rest, num, off =>
    ⟨num, off, off + t.length, t⟩ :: mkLines rest (num + 1) (off + t.length + 1)

/-- The lines of a document (a document is a list of line texts). -/
def docLines (doc : List (List Char)) : List LineInfo := mkLines doc 1 0

/-- Total character length of the document (lines joined by single newlines). -/
def docLength (doc : List (List Char)) : Nat :=
  (doc.map List.length).sum + (doc.length - 1)

/-- The suffix of the line list starting at the line containing `pos`
(clamped to the last line), mirroring repeated `doc.lineAt` lookups. -/
def linesFromPos : List LineInfo → Nat → List LineInfo
  | [], _ => []
  | l :: rest, pos =>
    if pos ≤ l.lto then l :: rest
    else if rest.isEmpty then l :: rest
    else linesFromPos rest pos

/-- CodeMirror's `doc.lineAt(pos)` over a line list. -/
def lineAt (ls : List LineInfo) (pos : Nat) : Option LineInfo :=
  (linesFromPos ls pos).head?

/-- `state.doc.lineAt(state.selection.main.head).number`. -/
def activeLineNum (doc : List (List Char)) (selHead : Nat) : Nat :=
  match lineAt (docLines doc) selHead with
  | some l => l.num
  | none => 0

/-- The heading plugin's per-range while loop: starting at `pos`, visit each
line while `pos ≤ rto`, skip the active line, emit heading decorations for the
others, and advance `pos` to `l.lto + 1`. -/
def headingScan (activeNum rto : Nat) : Nat → List LineInfo → List Deco
  | _, [] => []
  | pos, l :: rest =>
    if pos ≤ rto then
      (if l.num = activeNum then [] else headingLineDecos l) ++
        headingScan activeNum rto (l.lto + 1) rest
    else []

/-- The checkbox plugin's per-range while loop. -/
def checkboxScan (activeNum rto : Nat) : Nat → List LineInfo → List Deco
  | _, [] => []
  | pos, l :: rest =>
    if pos ≤ rto then
      (if l.num = activeNum then [] else (checkboxLineDeco l).toList) ++
        checkboxScan activeNum rto (l.lto + 1) rest
    else []

/-- The heading plugin's `build`, with the active line number precomputed. -/
def headingBuildAt (doc : List (List Char)) (activeNum : Nat)
    (ranges : List (Nat × Nat)) : List Deco :=
  (ranges.map fun r => headingScan activeNum r.2 r.1 (linesFromPos (docLines doc) r.1)).flatten

/-- `headingDecorationsSkipActiveLine`'s `build(view)`: decorations over all
visible ranges, skipping the line containing the selection head. -/
def headingBuild (doc : List (List Char)) (selHead : Nat)
    (ranges : List (Nat × Nat)) : List Deco :=
  headingBuildAt doc (activeLineNum doc selHead) ranges

/-- The checkbox plugin's `build`, with the active line number precomputed. -/
def checkboxBuildAt (doc : List (List Char)) (activeNum : Nat)
    (ranges : List (Nat × Nat)) : List Deco :=
  (ranges.map fun r => checkboxScan activeNum r.2 r.1 (linesFromPos (docLines doc) r.1)).flatten

/-- `checkboxDecorationsSkipActiveLine`'s `build(view)`. -/
def checkboxBuild (doc : List (List Char)) (selHead : Nat)
    (ranges : List (Nat × Nat)) : List Deco :=
  checkboxBuildAt doc (activeLineNum doc selHead) ranges

/-- The flags of a CodeMirror `ViewUpdate` the plugins inspect. -/
structure UpdateFlags where
  docChanged : Bool
  viewportChanged : Bool
  selectionSet : Bool
  deriving DecidableEq, Repr

/-- The inputs of a `build` call: document, selection head, visible ranges. -/
structure ViewSnapshot where
  doc : List (List Char)
  selHead : Nat
  visibleRanges : List (Nat × Nat)
  deriving DecidableEq, Repr

/-- The heading plugin's `update(update)`: rebuild when the document, viewport
or selection changed, otherwise keep the previous decoration set. -/
def headingUpdate (u : UpdateFlags) (v : ViewSnapshot) (decorations : List Deco) : List Deco :=
  if u.docChanged || u.viewportChanged || u.selectionSet then
    headingBuild v.doc v.selHead v.visibleRanges
  else decorations

/-- The checkbox plugin's `update(update)`. -/
def checkboxUpdate (u : UpdateFlags) (v : ViewSnapshot) (decorations : List Deco) : List Deco :=
  if u.docChanged || u.viewportChanged || u.selectionSet then
    checkboxBuild v.doc v.selHead v.visibleRanges
  else decorations

/-- `view.dispatch(changes: (from, to, insert))` on flat document text:
replace the characters in `[rfrom, rto)` with `ins`. -/
def replaceRange (doc : List Char) (rfrom rto : Nat) (ins : List Char) : List Char :=
  doc.take rfrom ++ ins ++ doc.drop rto

/-- The literal replacement text the toggle handler inserts when checking. -/
def checkedText : List Char := ['[', 'x', ']']

/-- The literal replacement text the toggle handler inserts when unchecking. -/
def uncheckedText : List Char := ['[', ' ', ']']

/-- The `CheckboxWidget` state: checked flag and the span it rewrites. -/
structure CheckboxWidget where
  checked : Bool
  wfrom : Nat
  wto : Nat
  deriving DecidableEq, Repr

/-- The widget's `eq(other)` method. -/
def CheckboxWidget.eqW (a b : CheckboxWidget) : Bool :=
  a.checked == b.checked && a.wfrom == b.wfrom && a.wto == b.wto

/-- A user click on the rendered checkbox: the DOM checkbox flips, then the
change handler dispatches a replacement of `[wfrom, wto)` with the bracket
token matching the new checked state. -/
def CheckboxWidget.click (w : CheckboxWidget) (doc : List Char) : List Char :=
  replaceRange doc w.wfrom w.wto (if w.checked then uncheckedText else checkedText)

/-- CodeMirror's `doc.toString()`: lines joined by single newlines. -/
def docToString : List (List Char) → List Char
  | [] => []
  | [t] => t
  | t :: rest => t ++ '\n' :: docToString rest

/-- A mounted editor: the view state plus the decoration sets currently held
by the two plugins (the export action must not depend on the latter). -/
structure MountedEditor where
  snapshot : ViewSnapshot
  headingDecos : List Deco
  checkboxDecos : List Deco
  deriving DecidableEq, Repr

/-- The Angular `EditorComponent`: a possibly-null view and the `exported`
field shown in the template. -/
structure EditorComponent where
  view : Option MountedEditor
  exported : List Char
  deriving DecidableEq, Repr

/-- The component's `export()` method (`export` is reserved in Lean): if no
view is mounted do nothing, otherwise store the raw document text. -/
def EditorComponent.exportAction (c : EditorComponent) : EditorComponent :=
  match c.view with
  | none => c
  | some m => ⟨c.view, docToString m.snapshot.doc⟩

/-- Specification-side reading of the heading regex: the line is exactly `k`
marker characters (1..6) followed by a whitespace character and anything. -/
def headingShape (t : List Char) (k : Nat) : Prop :=
  1 ≤ k ∧ k ≤ 6 ∧ ∃ c rest, t = List.replicate k '#' ++ c :: rest ∧ jsSpace c = true

/-- Specification-side reading of the checkbox regex: optional whitespace, a
dash, optional whitespace, then a bracket token around space/x/X. -/
def checkboxShape (t : List Char) (ws1 ws2 : List Char) (c : Char) (rest : List Char) : Prop :=
  (∀ a ∈ ws1, jsSpace a = true) ∧ (∀ a ∈ ws2, jsSpace a = true) ∧
  (c = ' ' ∨ c = 'x' ∨ c = 'X') ∧
  t = ws1 ++ ('-' :: (ws2 ++ ('[' :: c :: ']' :: rest)))

/-! ### Helper lemmas -/

theorem jsSpace_dash : jsSpace '-' = false := by decide

theorem jsSpace_lbracket : jsSpace '[' = false := by decide

theorem jsSpace_hash : jsSpace '#' = false := by decide

theorem dropWhile_append_all (p : Char → Bool) (ws l : List Char)
    (h : ∀ a ∈ ws, p a = true) :
    List.dropWhile p (ws ++ l) = List.dropWhile p l := by
  induction ws with
  | nil => rfl
  | cons a ws ih =>
    have ha : p a = true := h a (List.mem_cons_self a ws)
    rw [List.cons_append, List.dropWhile_cons, if_pos ha]
    exact ih fun b hb => h b (List.mem_cons_of_mem a hb)

theorem dropWhile_cons_neg (p : Char → Bool) (a : Char) (l : List Char)
    (h : p a = false) : List.dropWhile p (a :: l) = a :: l := by
  simp [List.dropWhile_cons, h]

theorem indexOfChar_append_not_mem (pre l : List Char) (c : Char) (h : c ∉ pre) :
    indexOfChar (pre ++ l) c = (indexOfChar l c).map (· + pre.length) := by
  induction pre with
  | nil => cases e : indexOfChar l c <;> simp [e]
  | cons a pre ih =>
    have hac : ¬ a = c := fun e => h (e ▸ List.mem_cons_self a pre)
    rw [List.cons_append, indexOfChar, if_neg hac,
      ih fun hm => h (List.mem_cons_of_mem a hm)]
    cases e : indexOfChar l c with
    | none => simp
    | some n => simp; omega

theorem countLeadingHashes_eq (k : Nat) (c : Char) (rest : List Char) (hc : c ≠ '#') :
    countLeadingHashes (List.replicate k '#' ++ c :: rest) = k := by
  induction k with
  | zero => simp [countLeadingHashes, hc]
  | succ k ih => simp [List.replicate_succ, countLeadingHashes, ih]

theorem countLeadingHashes_decomp (t : List Char) :
    t = List.replicate (countLeadingHashes t) '#' ++ t.drop (countLeadingHashes t) := by
  induction t with
  | nil => rfl
  | cons a rest ih =>
    by_cases h : a = '#'
    · subst h
      have hc : countLeadingHashes ('#' :: rest) = countLeadingHashes rest + 1 := by
        simp [countLeadingHashes]
      rw [hc, List.replicate_succ, List.cons_append, List.drop_succ_cons]
      exact congrArg (List.cons '#') ih
    · simp [countLeadingHashes, h]

theorem drop_countLeadingHashes_head (t : List Char) (c : Char) (rest : List Char)
    (h : t.drop (countLeadingHashes t) = c :: rest) : c ≠ '#' := by
  induction t generalizing c rest with
  | nil => simp at h
  | cons a t ih =>
    by_cases ha : a = '#'
    · subst ha
      have hc : countLeadingHashes ('#' :: t) = countLeadingHashes t + 1 := by
        simp [countLeadingHashes]
      rw [hc, List.drop_succ_cons] at h
      exact ih c rest h
    · simp only [countLeadingHashes, if_neg ha, List.drop_zero] at h
      obtain ⟨h1, h2⟩ := List.cons.inj h
      exact h1 ▸ ha

theorem headingMatch_eq_some_iff (t : List Char) (k : Nat) :
    headingMatch t = some k ↔ headingShape t k := by
  constructor
  · intro h
    unfold headingMatch at h
    split at h
    · next hk =>
      split at h
      · next c rest hdrop =>
        split at h
        · next hs =>
          obtain rfl : countLeadingHashes t = k := by injection h
          refine ⟨hk.1, hk.2, c, rest, ?_, hs⟩
          conv_lhs => rw [countLeadingHashes_decomp t]
          rw [hdrop]
        · cases h
      · cases h
    · cases h
  · rintro ⟨hk1, hk6, c, rest, ht, hs⟩
    have hc : c ≠ '#' := by
      intro e
      rw [e, jsSpace_hash] at hs
      cases hs
    have hcount : countLeadingHashes t = k := by
      rw [ht]; exact countLeadingHashes_eq k c rest hc
    have hdrop : t.drop (countLeadingHashes t) = c :: rest := by
      rw [hcount, ht]
      exact List.drop_left' (List.length_replicate k '#')
    have hdropk : t.drop k = c :: rest := by rw [← hcount]; exact hdrop
    unfold headingMatch
    rw [hcount, if_pos ⟨hk1, hk6⟩, hdropk]
    exact if_pos hs

theorem headingMatch_eq_none_iff (t : List Char) :
    headingMatch t = none ↔ ∀ j, ¬ headingShape t j := by
  constructor
  · intro h j hs
    have := (headingMatch_eq_some_iff t j).mpr hs
    rw [h] at this
    cases this
  · intro h
    cases hm : headingMatch t with
    | none => rfl
    | some k => exact absurd ((headingMatch_eq_some_iff t k).mp hm) (h k)

theorem checkboxMatch_of_shape (t ws1 ws2 : List Char) (c : Char) (rest : List Char)
    (h : checkboxShape t ws1 ws2 c rest) : checkboxMatch t = some c := by
  obtain ⟨h1, h2, hc, ht⟩ := h
  have e1 : List.dropWhile jsSpace t = '-' :: (ws2 ++ '[' :: c :: ']' :: rest) := by
    rw [ht, dropWhile_append_all jsSpace ws1 _ h1]
    exact dropWhile_cons_neg jsSpace '-' _ jsSpace_dash
  have e2 : List.dropWhile jsSpace (ws2 ++ '[' :: c :: ']' :: rest) =
      '[' :: c :: ']' :: rest := by
    rw [dropWhile_append_all jsSpace ws2 _ h2]
    exact dropWhile_cons_neg jsSpace '[' _ jsSpace_lbracket
  unfold checkboxMatch
  rw [e1]
  dsimp only
  rw [if_pos rfl, e2]
  exact if_pos ⟨rfl, rfl, hc⟩

theorem checkboxMatch_some_shape (t : List Char) (c : Char)
    (h : checkboxMatch t = some c) : ∃ ws1 ws2 rest, checkboxShape t ws1 ws2 c rest := by
  unfold checkboxMatch at h
  split at h
  · cases h
  · next d rest1 heq1 =>
    split at h
    · next hd =>
      split at h
      · next b c0 r tail heq2 =>
        split at h
        · next hcond =>
          obtain ⟨hb, hr, hc0⟩ := hcond
          obtain rfl : c0 = c := by injection h
          subst hd hb hr
          refine ⟨t.takeWhile jsSpace, rest1.takeWhile jsSpace, tail,
            fun a ha => List.mem_takeWhile_imp ha,
            fun a ha => List.mem_takeWhile_imp ha, hc0, ?_⟩
          conv_lhs => rw [← List.takeWhile_append_dropWhile jsSpace t, heq1]
          congr 2
          conv_lhs => rw [← List.takeWhile_append_dropWhile jsSpace rest1, heq2]
        · cases h
      · cases h
    · cases h

theorem indexOf_bracket_of_shape (t ws1 ws2 : List Char) (c : Char) (rest : List Char)
    (h : checkboxShape t ws1 ws2 c rest) :
    indexOfChar t '[' = some (ws1.length + 1 + ws2.length) := by
  obtain ⟨h1, h2, _, ht⟩ := h
  have nb1 : '[' ∉ ws1 := by
    intro hm
    have := h1 _ hm
    rw [jsSpace_lbracket] at this
    cases this
  have nb2 : '[' ∉ ws2 := by
    intro hm
    have := h2 _ hm
    rw [jsSpace_lbracket] at this
    cases this
  have hhead : indexOfChar ('[' :: c :: ']' :: rest) '[' = some 0 := by
    rw [indexOfChar, if_pos rfl]
  rw [ht, indexOfChar_append_not_mem _ _ _ nb1, indexOfChar, if_neg (by decide : ¬ '-' = '['),
    indexOfChar_append_not_mem _ _ _ nb2, hhead]
  simp only [Option.map_some']
  congr 1
  omega

theorem checked_flag_eq (c : Char) (hc : c = ' ' ∨ c = 'x' ∨ c = 'X') :
    (jsToLower c == 'x') = decide (c = 'x' ∨ c = 'X') := by
  rcases hc with rfl | rfl | rfl <;> decide

theorem mem_headingScan (a rto : Nat) (d : Deco) :
    ∀ (pos : Nat) (ls : List LineInfo), d ∈ headingScan a rto pos ls →
      ∃ l, l ∈ ls ∧ l.num ≠ a ∧ d ∈ headingLineDecos l := by
  intro pos ls
  induction ls generalizing pos with
  | nil => intro hd; simp [headingScan] at hd
  | cons l rest ih =>
    intro hd
    rw [headingScan] at hd
    split at hd
    · rw [List.mem_append] at hd
      cases hd with
      | inl h1 =>
        split at h1
        · cases h1
        · next hne => exact ⟨l, List.mem_cons_self l rest, hne, h1⟩
      | inr h2 =>
        obtain ⟨l2, hl2, hne, hd2⟩ := ih _ h2
        exact ⟨l2, List.mem_cons_of_mem l hl2, hne, hd2⟩
    · cases hd

theorem mem_checkboxScan (a rto : Nat) (d : Deco) :
    ∀ (pos : Nat) (ls : List LineInfo), d ∈ checkboxScan a rto pos ls →
      ∃ l, l ∈ ls ∧ l.num ≠ a ∧ checkboxLineDeco l = some d := by
  intro pos ls
  induction ls generalizing pos with
  | nil => intro hd; simp [checkboxScan] at hd
  | cons l rest ih =>
    intro hd
    rw [checkboxScan] at hd
    split at hd
    · rw [List.mem_append] at hd
      cases hd with
      | inl h1 =>
        split at h1
        · cases h1
        · next hne =>
          rw [Option.mem_toList, Option.mem_def] at h1
          exact ⟨l, List.mem_cons_self l rest, hne, h1⟩
      | inr h2 =>
        obtain ⟨l2, hl2, hne, hd2⟩ := ih _ h2
        exact ⟨l2, List.mem_cons_of_mem l hl2, hne, hd2⟩
    · cases hd

theorem linesFromPos_subset : ∀ (ls : List LineInfo) (pos : Nat), linesFromPos ls pos ⊆ ls := by
  intro ls
  induction ls with
  | nil => intro pos x hx; exact hx
  | cons l rest ih =>
    intro pos
    rw [linesFromPos]
    split
    · exact fun x hx => hx
    · split
      · exact fun x hx => hx
      · exact fun x hx => List.mem_cons_of_mem l (ih pos hx)

theorem mkLines_lineAt (ts : List (List Char)) :
    ∀ (num off pos : Nat), ts ≠ [] → pos ≤ off + docLength ts →
      ∃ l, (linesFromPos (mkLines ts num off) pos).head? = some l ∧ pos ≤ l.lto := by
  induction ts with
  | nil => intro _ _ _ h; exact absurd rfl h
  | cons t ts ih =>
    intro num off pos _ hpos
    rw [mkLines]
    by_cases hle : pos ≤ off + t.length
    · exact ⟨⟨num, off, off + t.length, t⟩, by rw [linesFromPos, if_pos hle]; rfl, hle⟩
    · cases ts with
      | nil =>
        exfalso
        apply hle
        have hd : docLength [t] = t.length := by simp [docLength]
        rw [hd] at hpos
        exact hpos
      | cons t2 ts2 =>
        have hstep : pos ≤ (off + t.length + 1) + docLength (t2 :: ts2) := by
          have : docLength (t :: t2 :: ts2) = t.length + 1 + docLength (t2 :: ts2) := by
            simp [docLength]
            omega
          omega
        obtain ⟨l, hl, hlto⟩ := ih (num + 1) (off + t.length + 1) pos (by simp) hstep
        refine ⟨l, ?_, hlto⟩
        rw [linesFromPos, if_neg hle, if_neg (by rw [mkLines]; simp)]
        exact hl

theorem headingLineDecos_length (l : LineInfo) : (headingLineDecos l).length ≤ 2 := by
  rw [headingLineDecos]
  split <;> simp

theorem checkboxLineDeco_length (l : LineInfo) : (checkboxLineDeco l).toList.length ≤ 1 := by
  cases h : checkboxLineDeco l <;> simp

theorem headingScan_length (a rto : Nat) :
    ∀ (pos : Nat) (ls : List LineInfo), (headingScan a rto pos ls).length ≤ 2 * ls.length := by
  intro pos ls
  induction ls generalizing pos with
  | nil => simp [headingScan]
  | cons l rest ih =>
    rw [headingScan]
    split
    · rw [List.length_append]
      have h1 : (if l.num = a then ([] : List Deco) else headingLineDecos l).length ≤ 2 := by
        split
        · simp
        · exact headingLineDecos_length l
      have h2 := ih (l.lto + 1)
      simp only [List.length_cons]
      omega
    · simp

theorem checkboxScan_length (a rto : Nat) :
    ∀ (pos : Nat) (ls : List LineInfo), (checkboxScan a rto pos ls).length ≤ ls.length := by
  intro pos ls
  induction ls generalizing pos with
  | nil => simp [checkboxScan]
  | cons l rest ih =>
    rw [checkboxScan]
    split
    · rw [List.length_append]
      have h1 : (if l.num = a then ([] : List Deco) else (checkboxLineDeco l).toList).length ≤ 1 := by
        split
        · simp
        · exact checkboxLineDeco_length l
      have h2 := ih (l.lto + 1)
      simp only [List.length_cons]
      omega
    · simp

/-! ### Claim theorems -/

/-- C1: for every document, selection and viewport, every decoration either
decorator emits comes from a line other than the active line, so the line
containing the selection head receives no decoration from either the heading
decorator or the checkbox decorator, regardless of its content. -/
theorem c1_active_line_receives_no_decoration
    (doc : List (List Char)) (selHead : Nat) (ranges : List (Nat × Nat)) (d : Deco) :
    (d ∈ headingBuild doc selHead ranges →
      ∃ l, l ∈ docLines doc ∧ l.num ≠ activeLineNum doc selHead ∧ d ∈ headingLineDecos l) ∧
    (d ∈ checkboxBuild doc selHead ranges →
      ∃ l, l ∈ docLines doc ∧ l.num ≠ activeLineNum doc selHead ∧
        checkboxLineDeco l = some d) := by
  constructor
  · intro hd
    rw [headingBuild, headingBuildAt, List.mem_flatten] at hd
    obtain ⟨s, hs, hds⟩ := hd
    rw [List.mem_map] at hs
    obtain ⟨r, _, rfl⟩ := hs
    obtain ⟨l, hl, hne, hdl⟩ := mem_headingScan _ _ _ _ _ hds
    exact ⟨l, linesFromPos_subset _ _ hl, hne, hdl⟩
  · intro hd
    rw [checkboxBuild, checkboxBuildAt, List.mem_flatten] at hd
    obtain ⟨s, hs, hds⟩ := hd
    rw [List.mem_map] at hs
    obtain ⟨r, _, rfl⟩ := hs
    obtain ⟨l, hl, hne, hdl⟩ := mem_checkboxScan _ _ _ _ _ hds
    exact ⟨l, linesFromPos_subset _ _ hl, hne, hdl⟩

/-- Witness for C1 at a concrete editor state (selection on line 2, heading on
line 1). -/
theorem c1_witness :
    ∃ l, l ∈ docLines [['#', ' ', 'A'], ['a']] ∧
      l.num ≠ activeLineNum [['#', ' ', 'A'], ['a']] 4 ∧
      Deco.replaceHidden 0 2 ∈ headingLineDecos l :=
  (c1_active_line_receives_no_decoration [['#', ' ', 'A'], ['a']] 4 [(0, 5)]
    (Deco.replaceHidden 0 2)).1 (by decide)

/-- C2 (amended): on a non-active line matching the heading regex at level k,
the decorator hides exactly the k marker characters plus ONE following
character (the first whitespace of the separator, not the entire whitespace
run) and attaches line class md-h<level>; a line matching at no level gets no
decoration at all. -/
theorem c2_heading_decorations_amended (l : LineInfo) (k : Nat) :
    (headingShape l.text k →
      headingLineDecos l =
        [Deco.replaceHidden l.lfrom (l.lfrom + (k + 1)),
         Deco.lineClass l.lfrom ("md-h" ++ toString k)]) ∧
    ((∀ j, ¬ headingShape l.text j) → headingLineDecos l = []) := by
  constructor
  · intro hs
    rw [headingLineDecos, (headingMatch_eq_some_iff l.text k).mpr hs]
  · intro hns
    rw [headingLineDecos, (headingMatch_eq_none_iff l.text).mpr hns]

/-- Counterexample to C2 as stated: on the non-active line `#  T` the regex
separator `\s+` spans the two spaces (offsets 1-2), so the claimed hidden span
is [0, 3); the decorator hides only [0, 2). -/
theorem c2_counterexample :
    headingMatch ['#', ' ', ' ', 'T'] = some 1 ∧
    (List.takeWhile jsSpace (List.drop 1 ['#', ' ', ' ', 'T'])).length = 2 ∧
    headingBuild [['#', ' ', ' ', 'T'], ['a']] 5 [(0, 6)] =
      [Deco.replaceHidden 0 2, Deco.lineClass 0 "md-h1"] ∧
    Deco.replaceHidden 0 3 ∉ headingBuild [['#', ' ', ' ', 'T'], ['a']] 5 [(0, 6)] :=
  ⟨by decide, by decide, by decide, by decide⟩

/-- Witness for the amended C2 on the line `# A`. -/
theorem c2_witness :
    headingLineDecos ⟨1, 0, 3, ['#', ' ', 'A']⟩ =
      [Deco.replaceHidden 0 2, Deco.lineClass 0 "md-h1"] :=
  (c2_heading_decorations_amended ⟨1, 0, 3, ['#', ' ', 'A']⟩ 1).1
    ⟨by decide, by decide, ' ', ['A'], by decide, by decide⟩

/-- C3: a line receives a checkbox decoration iff its text matches the
checkbox regex; on a match the replaced span is the 3-character bracket token
located at the first opening bracket and the checked flag equals (token is x
or X); malformed bracket interiors such as `[ x]` and `[y]` are non-matches
(and no failure occurs: the match function is total). -/
theorem c3_checkbox_decoration_iff (l : LineInfo) :
    ((checkboxLineDeco l).isSome = true ↔
      ∃ ws1 ws2 c rest, checkboxShape l.text ws1 ws2 c rest) ∧
    (∀ ws1 ws2 c rest, checkboxShape l.text ws1 ws2 c rest →
      checkboxLineDeco l =
        some (Deco.replaceCheckbox (l.lfrom + (ws1.length + 1 + ws2.length))
          (l.lfrom + (ws1.length + 1 + ws2.length) + 3) (decide (c = 'x' ∨ c = 'X')))) ∧
    checkboxMatch ['-', ' ', '[', ' ', 'x', ']'] = none ∧
    checkboxMatch ['-', ' ', '[', 'y', ']'] = none := by
  have main : ∀ ws1 ws2 c rest, checkboxShape l.text ws1 ws2 c rest →
      checkboxLineDeco l =
        some (Deco.replaceCheckbox (l.lfrom + (ws1.length + 1 + ws2.length))
          (l.lfrom + (ws1.length + 1 + ws2.length) + 3) (decide (c = 'x' ∨ c = 'X'))) := by
    intro ws1 ws2 c rest hs
    have hm := checkboxMatch_of_shape l.text ws1 ws2 c rest hs
    have hi := indexOf_bracket_of_shape l.text ws1 ws2 c rest hs
    have hflag := checked_flag_eq c hs.2.2.1
    rw [checkboxLineDeco, hm]
    dsimp only
    rw [hi, hflag]
  refine ⟨⟨?_, ?_⟩, main, by decide, by decide⟩
  · intro hsome
    cases hm : checkboxMatch l.text with
    | none => rw [checkboxLineDeco, hm] at hsome; simp at hsome
    | some c =>
      obtain ⟨ws1, ws2, rest, hs⟩ := checkboxMatch_some_shape l.text c hm
      exact ⟨ws1, ws2, c, rest, hs⟩
  · rintro ⟨ws1, ws2, c, rest, hs⟩
    rw [main ws1 ws2 c rest hs]
    rfl

/-- Witness for C3 on the line `- [x] a`. -/
theorem c3_witness :
    checkboxLineDeco ⟨1, 0, 7, ['-', ' ', '[', 'x', ']', ' ', 'a']⟩ =
      some (Deco.replaceCheckbox 2 5 true) :=
  (c3_checkbox_decoration_iff ⟨1, 0, 7, ['-', ' ', '[', 'x', ']', ' ', 'a']⟩).2.1
    [] [' '] 'x' [' ', 'a'] ⟨by decide, by decide, by decide, by decide⟩

/-- C9: whenever the checkbox regex matches, `indexOf` of the opening bracket
finds exactly the matched bracket (the defensive -1 branch is unreachable
under the match precondition) and the 3-character range starting there is
precisely the matched bracket token. -/
theorem c9_indexOf_finds_matched_bracket (t : List Char) (c : Char)
    (h : checkboxMatch t = some c) :
    ∃ bi, indexOfChar t '[' = some bi ∧ (t.drop bi).take 3 = ['[', c, ']'] := by
  obtain ⟨ws1, ws2, rest, hshape⟩ := checkboxMatch_some_shape t c h
  refine ⟨ws1.length + 1 + ws2.length,
    indexOf_bracket_of_shape t ws1 ws2 c rest hshape, ?_⟩
  obtain ⟨_, _, _, ht⟩ := hshape
  have hassoc : t = (ws1 ++ '-' :: ws2) ++ ('[' :: c :: ']' :: rest) := by
    rw [ht]; simp
  rw [hassoc, List.drop_left' (by simp; omega)]
  rfl

/-- Witness for C9 on the line `-[x]`. -/
theorem c9_witness :
    ∃ bi, indexOfChar ['-', '[', 'x', ']'] '[' = some bi ∧
      ((['-', '[', 'x', ']'].drop bi).take 3 = ['[', 'x', ']']) :=
  c9_indexOf_finds_matched_bracket ['-', '[', 'x', ']'] 'x' (by decide)

theorem replaceRange_spec (doc ins : List Char) (rfrom : Nat)
    (hf : rfrom ≤ doc.length) (hlen : ins.length = 3) (h3 : rfrom + 3 ≤ doc.length) :
    (replaceRange doc rfrom (rfrom + 3) ins).take rfrom = doc.take rfrom ∧
    (replaceRange doc rfrom (rfrom + 3) ins).drop (rfrom + 3) = doc.drop (rfrom + 3) ∧
    ((replaceRange doc rfrom (rfrom + 3) ins).drop rfrom).take 3 = ins ∧
    (replaceRange doc rfrom (rfrom + 3) ins).length = doc.length := by
  have htl : (doc.take rfrom).length = rfrom := List.length_take_of_le hf
  refine ⟨?_, ?_, ?_, ?_⟩
  · rw [replaceRange, List.append_assoc, List.take_left' htl]
  · rw [replaceRange, List.drop_left' (by rw [List.length_append, htl, hlen])]
  · rw [replaceRange, List.append_assoc, List.drop_left' htl, List.take_left' hlen]
  · rw [replaceRange]
    simp only [List.length_append, htl, hlen, List.length_drop]
    omega

/-- C4: clicking the checkbox whose widget was built for the bracket token at
span [wfrom, wfrom+3) rewrites exactly those 3 characters — "[ ]" becomes
"[x]" and "[x]"/"[X]" become "[ ]" — and every character outside the span is
unchanged (the length is also preserved). -/
theorem c4_toggle_round_trip (doc : List Char) (wfrom : Nat) (c : Char) (rest : List Char)
    (hdoc : doc.drop wfrom = '[' :: c :: ']' :: rest)
    (hc : c = ' ' ∨ c = 'x' ∨ c = 'X') :
    ((CheckboxWidget.mk (jsToLower c == 'x') wfrom (wfrom + 3)).click doc).take wfrom =
      doc.take wfrom ∧
    ((CheckboxWidget.mk (jsToLower c == 'x') wfrom (wfrom + 3)).click doc).drop (wfrom + 3) =
      doc.drop (wfrom + 3) ∧
    (((CheckboxWidget.mk (jsToLower c == 'x') wfrom (wfrom + 3)).click doc).drop wfrom).take 3 =
      (if c = ' ' then checkedText else uncheckedText) ∧
    ((CheckboxWidget.mk (jsToLower c == 'x') wfrom (wfrom + 3)).click doc).length = doc.length := by
  have h0 := congrArg List.length hdoc
  rw [List.length_drop] at h0
  simp only [List.length_cons] at h0
  have h3 : wfrom + 3 ≤ doc.length := by omega
  have hlen : ((if (jsToLower c == 'x') then uncheckedText else checkedText) : List Char).length
      = 3 := by
    cases jsToLower c == 'x' <;> rfl
  have hspec := replaceRange_spec doc
    (if (jsToLower c == 'x') then uncheckedText else checkedText) wfrom (by omega) hlen h3
  have hif : ((if (jsToLower c == 'x') then uncheckedText else checkedText) : List Char) =
      (if c = ' ' then checkedText else uncheckedText) := by
    rcases hc with rfl | rfl | rfl <;> decide
  exact ⟨hspec.1, hspec.2.1, hspec.2.2.1.trans hif, hspec.2.2.2⟩

/-- Witness for C4: clicking the unchecked box of `- [ ]` yields `- [x]`. -/
theorem c4_witness :
    ((CheckboxWidget.mk (jsToLower ' ' == 'x') 2 (2 + 3)).click ['-', ' ', '[', ' ', ']']).take 2 =
      (['-', ' ', '[', ' ', ']'] : List Char).take 2 ∧
    ((CheckboxWidget.mk (jsToLower ' ' == 'x') 2 (2 + 3)).click ['-', ' ', '[', ' ', ']']).drop (2 + 3) =
      (['-', ' ', '[', ' ', ']'] : List Char).drop (2 + 3) ∧
    (((CheckboxWidget.mk (jsToLower ' ' == 'x') 2 (2 + 3)).click ['-', ' ', '[', ' ', ']']).drop 2).take 3 =
      checkedText ∧
    ((CheckboxWidget.mk (jsToLower ' ' == 'x') 2 (2 + 3)).click ['-', ' ', '[', ' ', ']']).length =
      (['-', ' ', '[', ' ', ']'] : List Char).length :=
  c4_toggle_round_trip ['-', ' ', '[', ' ', ']'] 2 ' ' [] (by decide) (Or.inl rfl)

/-- C5: the decoration sets are a deterministic function of the frame inputs
(visible ranges, active line number, document text): two selections with the
same active line give equal sets, and after a document change the update
discards any previously computed set and returns the freshly built one. -/
theorem c5_pure_function_of_frame :
    (∀ (doc : List (List Char)) (h1 h2 : Nat) (ranges : List (Nat × Nat)),
      activeLineNum doc h1 = activeLineNum doc h2 →
      headingBuild doc h1 ranges = headingBuild doc h2 ranges ∧
      checkboxBuild doc h1 ranges = checkboxBuild doc h2 ranges) ∧
    (∀ (u : UpdateFlags) (v : ViewSnapshot) (old1 old2 : List Deco),
      u.docChanged = true →
      headingUpdate u v old1 = headingBuild v.doc v.selHead v.visibleRanges ∧
      checkboxUpdate u v old2 = checkboxBuild v.doc v.selHead v.visibleRanges) := by
  constructor
  · intro doc h1 h2 ranges hact
    constructor
    · rw [headingBuild, headingBuild, hact]
    · rw [checkboxBuild, checkboxBuild, hact]
  · intro u v old1 old2 hd
    constructor
    · rw [headingUpdate, hd]
      simp
    · rw [checkboxUpdate, hd]
      simp

/-- Witness for C5 at concrete states. -/
theorem c5_witness :
    (headingBuild [['a'], ['b']] 0 [(0, 3)] = headingBuild [['a'], ['b']] 1 [(0, 3)] ∧
     checkboxBuild [['a'], ['b']] 0 [(0, 3)] = checkboxBuild [['a'], ['b']] 1 [(0, 3)]) ∧
    (headingUpdate ⟨true, false, false⟩ ⟨[['a']], 0, []⟩ [Deco.replaceHidden 9 9] =
       headingBuild [['a']] 0 [] ∧
     checkboxUpdate ⟨true, false, false⟩ ⟨[['a']], 0, []⟩ [Deco.replaceHidden 9 9] =
       checkboxBuild [['a']] 0 []) :=
  ⟨c5_pure_function_of_frame.1 [['a'], ['b']] 0 1 [(0, 3)] (by decide),
   c5_pure_function_of_frame.2 ⟨true, false, false⟩ ⟨[['a']], 0, []⟩
     [Deco.replaceHidden 9 9] [Deco.replaceHidden 9 9] rfl⟩

/-- C6: on an update notification each decorator rebuilds from scratch exactly
when the update reports a document change, a viewport change or a selection
change, and otherwise keeps its previous decoration set unchanged. -/
theorem c6_update_rebuild_policy (u : UpdateFlags) (v : ViewSnapshot) (old1 old2 : List Deco) :
    ((u.docChanged || u.viewportChanged || u.selectionSet) = true →
      headingUpdate u v old1 = headingBuild v.doc v.selHead v.visibleRanges ∧
      checkboxUpdate u v old2 = checkboxBuild v.doc v.selHead v.visibleRanges) ∧
    ((u.docChanged || u.viewportChanged || u.selectionSet) = false →
      headingUpdate u v old1 = old1 ∧ checkboxUpdate u v old2 = old2) := by
  constructor
  · intro h
    rw [headingUpdate, checkboxUpdate, h]
    simp
  · intro h
    rw [headingUpdate, checkboxUpdate, h]
    simp

/-- Witness for C6: a viewport-only change rebuilds, a flagless update keeps
the old set. -/
theorem c6_witness :
    (headingUpdate ⟨false, true, false⟩ ⟨[['a']], 0, []⟩ [] = headingBuild [['a']] 0 [] ∧
     checkboxUpdate ⟨false, true, false⟩ ⟨[['a']], 0, []⟩ [] = checkboxBuild [['a']] 0 []) ∧
    (headingUpdate ⟨false, false, false⟩ ⟨[['a']], 0, []⟩ [Deco.lineClass 3 "q"] =
       [Deco.lineClass 3 "q"] ∧
     checkboxUpdate ⟨false, false, false⟩ ⟨[['a']], 0, []⟩ [Deco.lineClass 3 "q"] =
       [Deco.lineClass 3 "q"]) :=
  ⟨(c6_update_rebuild_policy ⟨false, true, false⟩ ⟨[['a']], 0, []⟩ [] []).1 rfl,
   (c6_update_rebuild_policy ⟨false, false, false⟩ ⟨[['a']], 0, []⟩
     [Deco.lineClass 3 "q"] [Deco.lineClass 3 "q"]).2 rfl⟩

/-- C7: rebuilding on an unchanged (document, selection, viewport) yields the
identical decoration set for both decorators, whether or not the update path
triggers the rebuild. -/
theorem c7_rebuild_idempotent (u : UpdateFlags) (v : ViewSnapshot) :
    headingUpdate u v (headingBuild v.doc v.selHead v.visibleRanges) =
      headingBuild v.doc v.selHead v.visibleRanges ∧
    checkboxUpdate u v (checkboxBuild v.doc v.selHead v.visibleRanges) =
      checkboxBuild v.doc v.selHead v.visibleRanges := by
  constructor
  · rw [headingUpdate]
    split <;> rfl
  · rw [checkboxUpdate]
    split <;> rfl

/-- C8: the export action is a no-op when no editor is mounted; when mounted
it stores exactly the raw document text (lines joined by newlines), and the
result does not depend on the decoration sets held by the plugins. -/
theorem c8_export_raw_text (comp : EditorComponent) :
    (comp.view = none → comp.exportAction = comp) ∧
    (∀ m, comp.view = some m →
      comp.exportAction.exported = docToString m.snapshot.doc ∧
      comp.exportAction.view = comp.view) ∧
    (∀ (s : ViewSnapshot) (hd1 hd2 cb1 cb2 : List Deco) (e1 e2 : List Char),
      (EditorComponent.mk (some (MountedEditor.mk s hd1 cb1)) e1).exportAction.exported =
      (EditorComponent.mk (some (MountedEditor.mk s hd2 cb2)) e2).exportAction.exported) := by
  refine ⟨?_, ?_, ?_⟩
  · intro h
    rw [EditorComponent.exportAction, h]
  · intro m h
    rw [EditorComponent.exportAction, h]
    exact ⟨rfl, rfl⟩
  · intro s hd1 hd2 cb1 cb2 e1 e2
    rfl

/-- Witness for C8: unmounted export is the identity; mounted export stores
the document text. -/
theorem c8_witness :
    (EditorComponent.mk none ['q']).exportAction = EditorComponent.mk none ['q'] ∧
    (EditorComponent.mk (some (MountedEditor.mk ⟨[['a']], 0, []⟩ [] [])) []).exportAction.exported =
      docToString [['a']] ∧
    (EditorComponent.mk (some (MountedEditor.mk ⟨[['a']], 0, []⟩ [] [])) []).exportAction.view =
      (EditorComponent.mk (some (MountedEditor.mk ⟨[['a']], 0, []⟩ [] [])) []).view :=
  ⟨(c8_export_raw_text (EditorComponent.mk none ['q'])).1 rfl,
   (c8_export_raw_text (EditorComponent.mk (some (MountedEditor.mk ⟨[['a']], 0, []⟩ [] [])) [])).2.1
     (MountedEditor.mk ⟨[['a']], 0, []⟩ [] []) rfl⟩

/-- C10: the per-line scan loops terminate and visit each line once: at every
valid position the line lookup yields a line with pos < lto + 1 (so the loop
variable strictly increases each iteration), and the number of emitted
decorations is bounded by one marker-hide/line-class pair (heading) or one
decoration (checkbox) per line of the scanned list. -/
theorem c10_scan_terminates :
    (∀ (doc : List (List Char)) (pos : Nat), doc ≠ [] → pos ≤ docLength doc →
      ∃ l, lineAt (docLines doc) pos = some l ∧ pos < l.lto + 1) ∧
    (∀ (a rto pos : Nat) (ls : List LineInfo),
      (headingScan a rto pos ls).length ≤ 2 * ls.length ∧
      (checkboxScan a rto pos ls).length ≤ ls.length) := by
  constructor
  · intro doc pos hne hpos
    obtain ⟨l, hl, hle⟩ := mkLines_lineAt doc 1 0 pos hne (by omega)
    exact ⟨l, hl, Nat.lt_succ_of_le hle⟩
  · intro a rto pos ls
    exact ⟨headingScan_length a rto pos ls, checkboxScan_length a rto pos ls⟩

/-- Witness for C10 at a concrete document and scan. -/
theorem c10_witness :
    (∃ l, lineAt (docLines [['a']]) 0 = some l ∧ 0 < l.lto + 1) ∧
    ((headingScan 1 5 0 ([] : List LineInfo)).length ≤ 2 * ([] : List LineInfo).length ∧
     (checkboxScan 1 5 0 ([] : List LineInfo)).length ≤ ([] : List LineInfo).length) :=
  ⟨c10_scan_terminates.1 [['a']] 0 (by decide) (by decide),
   c10_scan_terminates.2 1 5 0 []⟩
